import Mathlib

/-!
Verification development for the shift scheduling and coverage engine of a
fire-department workforce-management dashboard (single-page React frontend,
`src/frontend/src/App.js`).  The coverage classifier (`getGardeCoverage`),
the weekday-applicability check (`shouldShowTypeGardeForDay`) and the
advanced-assignment form defaulting live in the frontend source and are
embedded directly from it.  The AssignmentStore ledger, the recurrence
expander and the leave/replacement decision workflow are server-side and
their code is not part of this repository checkout; those components are
modelled from the specification, as marked on each definition.
-/

/-- A calendar date (proleptic Gregorian), as produced by the JavaScript
`Date` values the planning view iterates over. -/
structure Date where
  year : Nat
  month : Nat
  day : Nat
deriving DecidableEq, Repr

def isLeapYear (y : Nat) : Bool :=
  (y % 4 == 0 && y % 100 != 0) || y % 400 == 0

def daysInMonth (y m : Nat) : Nat :=
  if m = 2 then (if isLeapYear y then 29 else 28)
  else if m = 4 ∨ m = 6 ∨ m = 9 ∨ m = 11 then 30
  else 31

/-- Days contributed by the months strictly before month `m` of year `y`. -/
def daysBeforeMonth (y m : Nat) : Nat :=
  (List.range (m - 1)).foldl (fun acc i => acc + daysInMonth y (i + 1)) 0

/-- Serial day number of a date (0001-01-01 ↦ 1), proleptic Gregorian. -/
def dayNumber (d : Date) : Nat :=
  365 * (d.year - 1) + (d.year - 1) / 4 + (d.year - 1) / 400
    - (d.year - 1) / 100 + daysBeforeMonth d.year d.month + d.day

/-- Monday-first weekday index of a date (0 = Monday … 6 = Sunday), matching
the `weekDays`/`weekDaysEn` arrays the planning view indexes with `dayIndex`. -/
def mondayIndex (d : Date) : Nat :=
  (dayNumber d + 6) % 7

/-- `weekDaysEn` from App.js line 2585: Monday-first English day names. -/
def weekDaysEn : List String :=
  ["monday", "tuesday", "wednesday", "thursday", "friday", "saturday", "sunday"]

/-- The English day name of a date, as the planning grid derives it. -/
def jsWeekdayName (d : Date) : String :=
  weekDaysEn.getD (mondayIndex d) ""

def pad2 (n : Nat) : String :=
  if n < 10 then "0" ++ toString n else toString n

/-- `date.toISOString().split('T')[0]` : the `YYYY-MM-DD` string key used to
match assignments to calendar cells. -/
def isoDate (d : Date) : String :=
  toString d.year ++ "-" ++ pad2 d.month ++ "-" ++ pad2 d.day

/-- A guard type (shift template) as the frontend receives it: identity,
required personnel count and applicable weekdays (`jours_application`,
empty ⇒ applies every day). -/
structure TypeGarde where
  id : String
  personnel_requis : Nat
  jours_application : List String
deriving DecidableEq, Repr

/-- One assignment row as the frontend receives it (`a.date` is an ISO
date string, ids are opaque strings). -/
structure Assignation where
  date : String
  type_garde_id : String
  user_id : String
deriving DecidableEq, Repr

/-- The three coverage states the classifier returns (App.js literals
`vacante`, `partielle`, `complete`). -/
inductive CoverageState where
  | vacante
  | partielle
  | complete
deriving DecidableEq, Repr

/-- `getGardeCoverage` (App.js lines 2640-2652): filter the assignment list
to the (date, guard type) pair, then classify by count against
`personnel_requis`. -/
def getGardeCoverage (assignations : List Assignation) (date : Date)
    (typeGarde : TypeGarde) : CoverageState :=
  let dateStr := isoDate date
  let gardeAssignations := assignations.filter fun a =>
    a.date == dateStr && a.type_garde_id == typeGarde.id
  let assigned := gardeAssignations.length
  let required := typeGarde.personnel_requis
  if assigned = 0 then CoverageState.vacante
  else if required ≤ assigned then CoverageState.complete
  else CoverageState.partielle

/-- The number of assignments matching a (date, guard type) pair, exactly
the filter inside `getGardeCoverage`. -/
def matchCount (assignations : List Assignation) (date : Date)
    (typeGarde : TypeGarde) : Nat :=
  (assignations.filter fun a =>
    a.date == isoDate date && a.type_garde_id == typeGarde.id).length

/-- Coverage as a function of the matching-assignment count alone. -/
def coverageOfCount (assigned required : Nat) : CoverageState :=
  if assigned = 0 then CoverageState.vacante
  else if required ≤ assigned then CoverageState.complete
  else CoverageState.partielle

theorem getGardeCoverage_eq_count (assignations : List Assignation)
    (date : Date) (tg : TypeGarde) :
    getGardeCoverage assignations date tg =
      coverageOfCount (matchCount assignations date tg) tg.personnel_requis := rfl

/-- `shouldShowTypeGardeForDay` (App.js lines 2888-2897): a guard type with
no `jours_application` shows every day; otherwise it shows only on days
whose English name is in the list. -/
def shouldShowTypeGardeForDay (typeGarde : TypeGarde) (dayIndex : Nat) : Bool :=
  if typeGarde.jours_application.isEmpty then true
  else typeGarde.jours_application.contains (weekDaysEn.getD dayIndex "")

/-- `vacante < partielle < complete`, the coverage ordering of the spec. -/
def coverageRank : CoverageState → Nat
  | CoverageState.vacante => 0
  | CoverageState.partielle => 1
  | CoverageState.complete => 2

theorem coverageOfCount_mono (r : Nat) {m n : Nat} (h : m ≤ n) :
    coverageRank (coverageOfCount m r) ≤ coverageRank (coverageOfCount n r) := by
  unfold coverageOfCount coverageRank
  split_ifs <;> simp_all <;> omega

/-- C1: For every (date, guardType) pair with the data model's constraint
`personnel_requis ≥ 1`, the classifier returns `vacante` exactly when the
matching-assignment count is 0, `complete` exactly when the count is at
least `personnel_requis`, and `partielle` otherwise. -/
theorem C1_coverage_thresholds (assignations : List Assignation) (date : Date)
    (tg : TypeGarde) (hreq : 1 ≤ tg.personnel_requis) :
    (getGardeCoverage assignations date tg = CoverageState.vacante ↔
      matchCount assignations date tg = 0) ∧
    (getGardeCoverage assignations date tg = CoverageState.complete ↔
      tg.personnel_requis ≤ matchCount assignations date tg) ∧
    (getGardeCoverage assignations date tg = CoverageState.partielle ↔
      0 < matchCount assignations date tg ∧
        matchCount assignations date tg < tg.personnel_requis) := by
  rw [getGardeCoverage_eq_count]
  unfold coverageOfCount
  split_ifs <;> refine ⟨?_, ?_, ?_⟩ <;> simp_all <;> omega

/-- Scenario A instance: guard type requiring 2 people, applicable Monday
through Friday, on Wednesday 2025-01-01 with exactly 1 assignment. -/
def tgScenarioA : TypeGarde :=
  { id := "g-day-10h", personnel_requis := 2,
    jours_application := ["monday", "tuesday", "wednesday", "thursday", "friday"] }

def dScenarioA : Date := { year := 2025, month := 1, day := 1 }

def aScenarioA : Assignation :=
  { date := "2025-01-01", type_garde_id := "g-day-10h", user_id := "u1" }

theorem C1_witness :
    1 ≤ tgScenarioA.personnel_requis ∧
    ((getGardeCoverage [aScenarioA] dScenarioA tgScenarioA = CoverageState.vacante ↔
        matchCount [aScenarioA] dScenarioA tgScenarioA = 0) ∧
      (getGardeCoverage [aScenarioA] dScenarioA tgScenarioA = CoverageState.complete ↔
        tgScenarioA.personnel_requis ≤ matchCount [aScenarioA] dScenarioA tgScenarioA) ∧
      (getGardeCoverage [aScenarioA] dScenarioA tgScenarioA = CoverageState.partielle ↔
        0 < matchCount [aScenarioA] dScenarioA tgScenarioA ∧
          matchCount [aScenarioA] dScenarioA tgScenarioA < tgScenarioA.personnel_requis)) :=
  ⟨by decide, C1_coverage_thresholds [aScenarioA] dScenarioA tgScenarioA (by decide)⟩

/-- C10: the zero-assignment check takes priority over the required-count
comparison: zero matching assignments always classify as `vacante`, even
when `personnel_requis` is 0, and `complete` is only returned when at least
one matching assignment exists. -/
theorem C10_vacant_priority (assignations : List Assignation) (date : Date)
    (tg : TypeGarde) :
    (matchCount assignations date tg = 0 →
      getGardeCoverage assignations date tg = CoverageState.vacante) ∧
    (getGardeCoverage assignations date tg = CoverageState.complete →
      1 ≤ matchCount assignations date tg ∧
        tg.personnel_requis ≤ matchCount assignations date tg) := by
  rw [getGardeCoverage_eq_count]
  unfold coverageOfCount
  split_ifs <;> constructor <;> intro h <;> simp_all <;> omega

/-- A guard type with `personnel_requis = 0`: `assigned ≥ required` holds
even with zero assignments, yet the classifier answers `vacante`. -/
def tgZeroReq : TypeGarde :=
  { id := "g-zero", personnel_requis := 0, jours_application := [] }

theorem C10_witness :
    getGardeCoverage [] dScenarioA tgZeroReq = CoverageState.vacante :=
  (C10_vacant_priority [] dScenarioA tgZeroReq).1 (by decide)

/-- C8: coverage classification is monotone in the assignment set: adding
an assignment matching the (date, guard type) pair never decreases the state
under `vacante < partielle < complete`, and removing one never increases it. -/
theorem C8_coverage_monotone (assignations : List Assignation) (a : Assignation)
    (date : Date) (tg : TypeGarde)
    (hmatch : a.date = isoDate date ∧ a.type_garde_id = tg.id) :
    coverageRank (getGardeCoverage assignations date tg) ≤
      coverageRank (getGardeCoverage (a :: assignations) date tg) ∧
    coverageRank (getGardeCoverage (assignations.erase a) date tg) ≤
      coverageRank (getGardeCoverage assignations date tg) := by
  rw [getGardeCoverage_eq_count, getGardeCoverage_eq_count,
    getGardeCoverage_eq_count]
  constructor
  · apply coverageOfCount_mono
    unfold matchCount
    rw [List.filter_cons_of_pos]
    · exact Nat.le_succ _
    · simp [hmatch.1, hmatch.2]
  · apply coverageOfCount_mono
    unfold matchCount
    exact List.Sublist.length_le
      (List.Sublist.filter _ (List.erase_sublist a assignations))

theorem C8_witness :
    (aScenarioA.date = isoDate dScenarioA ∧
      aScenarioA.type_garde_id = tgScenarioA.id) ∧
    (coverageRank (getGardeCoverage [] dScenarioA tgScenarioA) ≤
      coverageRank (getGardeCoverage [aScenarioA] dScenarioA tgScenarioA) ∧
    coverageRank (getGardeCoverage (List.erase [] aScenarioA) dScenarioA tgScenarioA) ≤
      coverageRank (getGardeCoverage [] dScenarioA tgScenarioA)) :=
  ⟨by decide, C8_coverage_monotone [] aScenarioA dScenarioA tgScenarioA (by decide)⟩

/-- A guard type applicable only on Mondays. -/
def tgMondayOnly : TypeGarde :=
  { id := "g-mon", personnel_requis := 1, jours_application := ["monday"] }

/-- C5 counterexample: 2025-01-01 is a Wednesday, which is not in
`tgMondayOnly`'s non-empty applicable set, yet `getGardeCoverage` still
returns a coverage state (`vacante`) — the classifier performs no
applicability precheck and raises no `NotApplicableError`. -/
theorem C5_counterexample :
    tgMondayOnly.jours_application ≠ [] ∧
    jsWeekdayName dScenarioA ∉ tgMondayOnly.jours_application ∧
    shouldShowTypeGardeForDay tgMondayOnly (mondayIndex dScenarioA) = false ∧
    getGardeCoverage [] dScenarioA tgMondayOnly = CoverageState.vacante := by
  decide

/-- C5 amended: applicability is handled by `shouldShowTypeGardeForDay`,
which returns `false` for a guard type whose non-empty `jours_application`
does not include the day's English name, so the planning grid skips the
shift entirely; `getGardeCoverage` itself never raises and returns a
coverage state for any date. -/
theorem C5_amended_not_shown (tg : TypeGarde) (dayIndex : Nat)
    (hne : tg.jours_application ≠ [])
    (hnotin : weekDaysEn.getD dayIndex "" ∉ tg.jours_application) :
    shouldShowTypeGardeForDay tg dayIndex = false := by
  unfold shouldShowTypeGardeForDay
  rw [if_neg]
  · simpa using hnotin
  · simpa using hne

theorem C5_amended_witness :
    (tgMondayOnly.jours_application ≠ [] ∧
      weekDaysEn.getD 2 "" ∉ tgMondayOnly.jours_application) ∧
    shouldShowTypeGardeForDay tgMondayOnly 2 = false :=
  ⟨⟨by decide, by decide⟩,
    C5_amended_not_shown tgMondayOnly 2 (by decide) (by decide)⟩

/-- Lexicographic (year, month, day) order on dates: `a ≤ b`. -/
def dateLe (a b : Date) : Prop :=
  a.year < b.year ∨ (a.year = b.year ∧
    (a.month < b.month ∨ (a.month = b.month ∧ a.day ≤ b.day)))

instance (a b : Date) : Decidable (dateLe a b) := by
  unfold dateLe; infer_instance

/-- Strict lexicographic (year, month, day) order on dates: `a < b`. -/
def dateLt (a b : Date) : Prop :=
  a.year < b.year ∨ (a.year = b.year ∧
    (a.month < b.month ∨ (a.month = b.month ∧ a.day < b.day)))

instance (a b : Date) : Decidable (dateLt a b) := by
  unfold dateLt; infer_instance

theorem dateLe_refl (d : Date) : dateLe d d := by
  unfold dateLe; omega

theorem dateLe_trans {a b c : Date} (h1 : dateLe a b) (h2 : dateLe b c) :
    dateLe a c := by
  unfold dateLe at h1 h2 ⊢; omega

/-- The calendar successor of a date, rolling over month and year ends. -/
def nextDay (d : Date) : Date :=
  if d.day < daysInMonth d.year d.month then ⟨d.year, d.month, d.day + 1⟩
  else if d.month < 12 then ⟨d.year, d.month + 1, 1⟩
  else ⟨d.year + 1, 1, 1⟩

theorem dateLe_nextDay (d : Date) : dateLe d (nextDay d) := by
  unfold nextDay
  split_ifs <;> simp [dateLe] <;> omega

/-- Walk the calendar from `cur` while it has not passed `e`, bounded by
`fuel` steps. -/
def datesUpTo : Nat → Date → Date → List Date
  | 0, _, _ => []
  | fuel + 1, cur, e =>
    if dateLe cur e then cur :: datesUpTo fuel (nextDay cur) e else []

/-- All calendar dates from `s` to `e` inclusive (366 days per calendar
year of the range is always enough fuel). -/
def datesFromTo (s e : Date) : List Date :=
  datesUpTo ((e.year + 1 - s.year) * 366) s e

theorem mem_datesUpTo {fuel : Nat} {cur e d : Date}
    (h : d ∈ datesUpTo fuel cur e) : dateLe cur d ∧ dateLe d e := by
  induction fuel generalizing cur with
  | zero => simp [datesUpTo] at h
  | succ n ih =>
    unfold datesUpTo at h
    by_cases hle : dateLe cur e
    · rw [if_pos hle] at h
      rcases List.mem_cons.mp h with rfl | hmem
      · exact ⟨dateLe_refl d, hle⟩
      · obtain ⟨h1, h2⟩ := ih hmem
        exact ⟨dateLe_trans (dateLe_nextDay cur) h1, h2⟩
    · rw [if_neg hle] at h
      simp at h

theorem mem_datesFromTo {s e d : Date} (h : d ∈ datesFromTo s e) :
    dateLe s d ∧ dateLe d e :=
  mem_datesUpTo h

/-- Months elapsed since year 0, month 1: the month axis the monthly
expansion walks along. -/
def monthIndex (d : Date) : Nat :=
  d.year * 12 + (d.month - 1)

/-- The date the monthly recurrence materializes in the month with index
`t`: the start's day-of-month, clamped to that month's last day. -/
def monthlyDateOf (s : Date) (t : Nat) : Date :=
  ⟨t / 12, t % 12 + 1, min s.day (daysInMonth (t / 12) (t % 12 + 1))⟩

/-- Modelled from the spec: the `monthly` arm of `RecurrenceExpander.expand`
(the backend of `/planning/assignation-avancee` is not part of this
checkout) — the start's day-of-month repeated across each month in
`[start, end]` inclusive of partial boundary months, clamped to each
month's last day. -/
def expandMonthlyDates (s e : Date) : List Date :=
  (List.range (monthIndex e + 1 - monthIndex s)).map fun i =>
    monthlyDateOf s (monthIndex s + i)

inductive RecurrenceKind where
  | once
  | weekly
  | monthly
deriving DecidableEq, Repr

/-- A recurrence specification as posted by `handleAdvancedAssignment`:
kind (`unique`/`hebdomadaire`/`mensuelle`), start date, optional end date,
and the selected weekdays for the weekly kind. -/
structure RecurrenceSpec where
  user_id : String
  type_garde_id : String
  kind : RecurrenceKind
  date_debut : Date
  date_fin : Option Date
  jours_semaine : List String
deriving DecidableEq, Repr

inductive ExpandError where
  | invalidRange
deriving DecidableEq, Repr

/-- Modelled from the spec: `RecurrenceExpander.expand` (server side of
`/planning/assignation-avancee`, not part of this checkout).  `end`
defaults to `start` when absent; an end before the start fails with
`InvalidRangeError` before any expansion; `once` yields the start date,
`weekly` the in-range dates whose weekday name is selected, `monthly` the
clamped day-of-month walk. -/
def expand (spec : RecurrenceSpec) : Except ExpandError (List Date) :=
  if dateLt (spec.date_fin.getD spec.date_debut) spec.date_debut then
    Except.error ExpandError.invalidRange
  else
    match spec.kind with
    | RecurrenceKind.once => Except.ok [spec.date_debut]
    | RecurrenceKind.weekly =>
      Except.ok ((datesFromTo spec.date_debut
          (spec.date_fin.getD spec.date_debut)).filter fun d =>
        spec.jours_semaine.contains (jsWeekdayName d))
    | RecurrenceKind.monthly =>
      Except.ok (expandMonthlyDates spec.date_debut
        (spec.date_fin.getD spec.date_debut))

/-- From `handleAdvancedAssignment` (App.js line 2841): the posted
`date_fin` falls back to `date_debut` when the form field is empty
(`advancedAssignConfig.date_fin || advancedAssignConfig.date_debut`). -/
def advancedDateFin (date_fin date_debut : String) : String :=
  if date_fin = "" then date_debut else date_fin

/-- Scenario B's recurrence: monthly from 2025-01-31 to 2025-04-30. -/
def specScenarioB : RecurrenceSpec :=
  { user_id := "u1", type_garde_id := "g1", kind := RecurrenceKind.monthly,
    date_debut := ⟨2025, 1, 31⟩, date_fin := some ⟨2025, 4, 30⟩,
    jours_semaine := [] }

/-- C6: the monthly expansion yields, for each month in `[start, end]`
inclusive of partial boundary months, the start's day-of-month clamped to
the month's last day; in particular Scenario B (start 2025-01-31, end
2025-04-30) expands to exactly 2025-01-31, 2025-02-28, 2025-03-31,
2025-04-30. -/
theorem C6_monthly_expansion (s e : Date) :
    (∀ d ∈ expandMonthlyDates s e,
      d.day = min s.day (daysInMonth d.year d.month) ∧
      monthIndex s ≤ monthIndex d ∧ monthIndex d ≤ monthIndex e) ∧
    (monthIndex s ≤ monthIndex e →
      (expandMonthlyDates s e).length = monthIndex e + 1 - monthIndex s) ∧
    expand specScenarioB = Except.ok
      [⟨2025, 1, 31⟩, ⟨2025, 2, 28⟩, ⟨2025, 3, 31⟩, ⟨2025, 4, 30⟩] := by
  refine ⟨?_, ?_, rfl⟩
  · intro d hd
    unfold expandMonthlyDates at hd
    rcases List.mem_map.mp hd with ⟨i, hi, rfl⟩
    rw [List.mem_range] at hi
    unfold monthIndex at hi
    unfold monthIndex monthlyDateOf
    dsimp only
    refine ⟨rfl, ?_, ?_⟩ <;> omega
  · intro hle
    unfold expandMonthlyDates
    rw [List.length_map, List.length_range]

theorem C6_witness :
    expand specScenarioB = Except.ok
      [⟨2025, 1, 31⟩, ⟨2025, 2, 28⟩, ⟨2025, 3, 31⟩, ⟨2025, 4, 30⟩] :=
  (C6_monthly_expansion ⟨2025, 1, 31⟩ ⟨2025, 4, 30⟩).2.2

/-- A weekly recurrence whose window (the single Monday 2025-01-06, since
`date_fin` is absent) contains no selected weekday: legitimately empty. -/
def specWeeklyEmpty : RecurrenceSpec :=
  { user_id := "u2", type_garde_id := "g1", kind := RecurrenceKind.weekly,
    date_debut := ⟨2025, 1, 6⟩, date_fin := none, jours_semaine := ["tuesday"] }

/-- C7: every date a weekly expansion returns has its weekday name in the
spec's weekday set and lies within `[start, end]`; an absent end defaults
to the start (both in the expander and in the frontend form posting), and
an empty result is a valid `ok` outcome, not an error. -/
theorem C7_weekly_expansion (spec : RecurrenceSpec)
    (hk : spec.kind = RecurrenceKind.weekly) (ds : List Date)
    (hok : expand spec = Except.ok ds) :
    (∀ d ∈ ds, jsWeekdayName d ∈ spec.jours_semaine ∧
      dateLe spec.date_debut d ∧
      dateLe d (spec.date_fin.getD spec.date_debut)) ∧
    (∀ u t k sd js, expand ⟨u, t, k, sd, none, js⟩ =
      expand ⟨u, t, k, sd, some sd, js⟩) ∧
    expand specWeeklyEmpty = Except.ok [] ∧
    (∀ debut, advancedDateFin "" debut = debut) := by
  refine ⟨?_, fun u t k sd js => rfl, rfl, fun debut => rfl⟩
  intro d hd
  unfold expand at hok
  by_cases hlt : dateLt (spec.date_fin.getD spec.date_debut) spec.date_debut
  · rw [if_pos hlt] at hok
    cases hok
  · rw [if_neg hlt, hk] at hok
    simp only [Except.ok.injEq] at hok
    rw [← hok] at hd
    rcases List.mem_filter.mp hd with ⟨hmem, hpred⟩
    have hb := mem_datesFromTo hmem
    refine ⟨?_, hb.1, hb.2⟩
    simpa using hpred

/-- A weekly recurrence over 2025-01-06 … 2025-01-12 selecting Monday,
Thursday and Sunday. -/
def specWeeklyDemo : RecurrenceSpec :=
  { user_id := "u3", type_garde_id := "g1", kind := RecurrenceKind.weekly,
    date_debut := ⟨2025, 1, 6⟩, date_fin := some ⟨2025, 1, 12⟩,
    jours_semaine := ["monday", "thursday", "sunday"] }

theorem C7_witness :
    jsWeekdayName ⟨2025, 1, 9⟩ ∈ specWeeklyDemo.jours_semaine ∧
    dateLe specWeeklyDemo.date_debut ⟨2025, 1, 9⟩ ∧
    dateLe (⟨2025, 1, 9⟩ : Date)
      (specWeeklyDemo.date_fin.getD specWeeklyDemo.date_debut) :=
  (C7_weekly_expansion specWeeklyDemo rfl
      [Date.mk 2025 1 6, Date.mk 2025 1 9, Date.mk 2025 1 12] rfl).1
    ⟨2025, 1, 9⟩ (by decide)

/-- C9: a recurrence whose effective end precedes its start fails with
`InvalidRangeError` and never produces a date list, so nothing is created
from it. -/
theorem C9_invalid_range (spec : RecurrenceSpec)
    (h : dateLt (spec.date_fin.getD spec.date_debut) spec.date_debut) :
    expand spec = Except.error ExpandError.invalidRange ∧
    ∀ ds, expand spec ≠ Except.ok ds := by
  have he : expand spec = Except.error ExpandError.invalidRange := by
    unfold expand
    rw [if_pos h]
  refine ⟨he, fun ds hok => ?_⟩
  rw [he] at hok
  cases hok

/-- A recurrence whose end (2025-05-01) precedes its start (2025-05-10). -/
def specBadRange : RecurrenceSpec :=
  { user_id := "u4", type_garde_id := "g1", kind := RecurrenceKind.once,
    date_debut := ⟨2025, 5, 10⟩, date_fin := some ⟨2025, 5, 1⟩,
    jours_semaine := [] }

theorem C9_witness :
    dateLt (specBadRange.date_fin.getD specBadRange.date_debut)
      specBadRange.date_debut ∧
    expand specBadRange = Except.error ExpandError.invalidRange :=
  ⟨by decide, (C9_invalid_range specBadRange (by decide)).1⟩

/-- Modelled from the spec: one `AssignmentStore` ledger row — identity,
employee, guard type, date (ISO string) and origin tag (the backend store
behind `/planning/assignations` is not part of this checkout). -/
structure Assignment where
  id : Nat
  employee : String
  guardType : String
  date : String
  origin : String
deriving DecidableEq, Repr

inductive StoreError where
  | conflict
  | notFound
deriving DecidableEq, Repr

/-- Modelled from the spec: the AssignmentStore state — the ledger plus a
fresh-id counter. -/
structure AssignmentStore where
  assignments : List Assignment
  nextId : Nat
deriving DecidableEq, Repr

/-- Does `a` book the (employee, guardType, date) triple `(e, g, d)`? -/
def tripleMatches (a : Assignment) (e g d : String) : Bool :=
  a.employee == e && a.guardType == g && a.date == d

/-- Modelled from the spec: `AssignmentStore.create` — fails with
`ConflictError` when the (employee, guardType, date) triple is already
booked (idempotent rejection, not silent overwrite), inserts otherwise. -/
def AssignmentStore.create (s : AssignmentStore) (e g d origin : String) :
    Except StoreError (Assignment × AssignmentStore) :=
  if s.assignments.any fun a => tripleMatches a e g d then
    Except.error StoreError.conflict
  else
    Except.ok (⟨s.nextId, e, g, d, origin⟩,
      ⟨(⟨s.nextId, e, g, d, origin⟩ : Assignment) :: s.assignments,
        s.nextId + 1⟩)

/-- Modelled from the spec: `AssignmentStore.deleteById` — removes the row
with the given id, `NotFoundError` when absent. -/
def AssignmentStore.deleteById (s : AssignmentStore) (i : Nat) :
    Except StoreError AssignmentStore :=
  if s.assignments.any fun a => a.id == i then
    Except.ok ⟨s.assignments.filter fun a => a.id != i, s.nextId⟩
  else
    Except.error StoreError.notFound

/-- Modelled from the spec: `AssignmentStore.deleteAll` — bulk-removes every
row of a (guardType, date) shift and reports how many were removed. -/
def AssignmentStore.deleteAll (s : AssignmentStore) (g d : String) :
    Nat × AssignmentStore :=
  ((s.assignments.filter fun a => a.guardType == g && a.date == d).length,
    ⟨s.assignments.filter fun a => !(a.guardType == g && a.date == d),
      s.nextId⟩)

/-- Number of ledger rows booking the given triple. -/
def tripleCount (s : AssignmentStore) (e g d : String) : Nat :=
  (s.assignments.filter fun a => tripleMatches a e g d).length

/-- The no-double-booking invariant: no two ledger rows share an
(employee, guardType, date) triple. -/
def StoreInv (s : AssignmentStore) : Prop :=
  List.Pairwise (fun a b : Assignment =>
      ¬(a.employee = b.employee ∧ a.guardType = b.guardType ∧ a.date = b.date))
    s.assignments

/-- Occupancy of a (guardType, date) shift in the ledger. -/
def occupancy (s : AssignmentStore) (g d : String) : Nat :=
  (s.assignments.filter fun a => a.guardType == g && a.date == d).length

inductive SwapError where
  | notFound
  | replacementConflict
deriving DecidableEq, Repr

/-- Modelled from the spec: the approve-time swap for a ReplacementRequest
with a resolved successor — `deleteById(original)` then
`create(successor, sameGuardType, sameDate, origin="manual")` as one
logical operation; when the create half fails with a conflict the deletion
is rolled back (the pre-swap store is returned) and the decision fails with
`ReplacementConflictError`. -/
def approveReplacementSwap (s : AssignmentStore) (origId : Nat)
    (succ g d : String) : AssignmentStore × Option SwapError :=
  match s.deleteById origId with
  | Except.error _ => (s, some SwapError.notFound)
  | Except.ok s₁ =>
    match s₁.create succ g d "manual" with
    | Except.error _ => (s, some SwapError.replacementConflict)
    | Except.ok (_, s₂) => (s₂, none)

inductive LeaveStatus where
  | en_attente
  | approuve
  | refuse
deriving DecidableEq, Repr

inductive ReplacementStatus where
  | en_cours
  | approuve
  | refuse
deriving DecidableEq, Repr

inductive DecideAction where
  | approuver
  | refuser
deriving DecidableEq, Repr

/-- A leave request (`demandes-conge` row): identity, requester and status
(`en_attente` pending, `approuve`/`refuse` terminal). -/
structure LeaveRequest where
  id : Nat
  demandeur : String
  statut : LeaveStatus
deriving DecidableEq, Repr

/-- A replacement request (`remplacements` row): identity, requester and
status (`en_cours` open, `approuve`/`refuse` terminal). -/
structure ReplacementRequest where
  id : Nat
  demandeur : String
  statut : ReplacementStatus
deriving DecidableEq, Repr

/-- A workflow notification to its recipient. -/
structure Notification where
  recipient : String
  kind : String
deriving DecidableEq, Repr

/-- The request-workflow state: both request ledgers plus the notification
history. -/
structure WorkflowState where
  conges : List LeaveRequest
  remplacements : List ReplacementRequest
  notifications : List Notification
deriving DecidableEq, Repr

inductive WorkflowError where
  | notFound
  | invalidTransition
deriving DecidableEq, Repr

def decideLeaveStatus : DecideAction → LeaveStatus
  | DecideAction.approuver => LeaveStatus.approuve
  | DecideAction.refuser => LeaveStatus.refuse

def decideReplacementStatus : DecideAction → ReplacementStatus
  | DecideAction.approuver => ReplacementStatus.approuve
  | DecideAction.refuser => ReplacementStatus.refuse

/-- Modelled from the spec: `decide` on a LeaveRequest (the server side of
`PUT demandes-conge/{id}/approuver`, not part of this checkout; the
frontend only renders decide buttons for `en_attente` requests).  A request
not in `en_attente` fails with `InvalidTransitionError` and the state is
returned unchanged — no transition and no new notification. -/
def decideConge (w : WorkflowState) (reqId : Nat) (action : DecideAction) :
    WorkflowState × Option WorkflowError :=
  match w.conges.find? fun r => r.id == reqId with
  | none => (w, some WorkflowError.notFound)
  | some r =>
    if r.statut = LeaveStatus.en_attente then
      ({ w with
          conges := w.conges.map fun q =>
            if q.id == reqId then { q with statut := decideLeaveStatus action }
            else q,
          notifications :=
            (⟨r.demandeur, "decision-conge"⟩ : Notification) ::
              w.notifications },
        none)
    else (w, some WorkflowError.invalidTransition)

/-- Modelled from the spec: `decide` on a ReplacementRequest (server side
of the replacements decision endpoint, not part of this checkout; the
frontend only renders decide buttons for `en_cours` requests). -/
def decideRemplacement (w : WorkflowState) (reqId : Nat)
    (action : DecideAction) : WorkflowState × Option WorkflowError :=
  match w.remplacements.find? fun r => r.id == reqId with
  | none => (w, some WorkflowError.notFound)
  | some r =>
    if r.statut = ReplacementStatus.en_cours then
      ({ w with
          remplacements := w.remplacements.map fun q =>
            if q.id == reqId then
              { q with statut := decideReplacementStatus action }
            else q,
          notifications :=
            (⟨r.demandeur, "decision-remplacement"⟩ : Notification) ::
              w.notifications },
        none)
    else (w, some WorkflowError.invalidTransition)

theorem create_ok_inv {s : AssignmentStore} {e g d o : String}
    {a : Assignment} {s₁ : AssignmentStore}
    (h : AssignmentStore.create s e g d o = Except.ok (a, s₁)) :
    (s.assignments.any fun b => tripleMatches b e g d) = false ∧
    a = ⟨s.nextId, e, g, d, o⟩ ∧
    s₁ = ⟨(⟨s.nextId, e, g, d, o⟩ : Assignment) :: s.assignments,
      s.nextId + 1⟩ := by
  unfold AssignmentStore.create at h
  by_cases hany : (s.assignments.any fun b => tripleMatches b e g d) = true
  · rw [if_pos hany] at h
    cases h
  · rw [if_neg hany] at h
    simp only [Except.ok.injEq, Prod.mk.injEq] at h
    simp only [Bool.not_eq_true] at hany
    exact ⟨hany, h.1.symm, h.2.symm⟩

/-- C2: the store maintains at-most-one-Assignment-per-triple: `create`,
`deleteById` and `deleteAll` preserve the invariant, and a second `create`
with an identical (employee, guardType, date) triple returns
`ConflictError` while the store holds exactly one matching Assignment. -/
theorem C2_no_double_booking :
    (∀ s e g d o a s₁, StoreInv s →
      AssignmentStore.create s e g d o = Except.ok (a, s₁) → StoreInv s₁) ∧
    (∀ s i s₁, StoreInv s →
      AssignmentStore.deleteById s i = Except.ok s₁ → StoreInv s₁) ∧
    (∀ s g d, StoreInv s → StoreInv (AssignmentStore.deleteAll s g d).2) ∧
    (∀ s e g d o o₂ a s₁,
      AssignmentStore.create s e g d o = Except.ok (a, s₁) →
      AssignmentStore.create s₁ e g d o₂ = Except.error StoreError.conflict ∧
      tripleCount s₁ e g d = 1) := by
  refine ⟨?_, ?_, ?_, ?_⟩
  · intro s e g d o a s₁ hinv hok
    obtain ⟨hany, -, hs₁⟩ := create_ok_inv hok
    subst hs₁
    unfold StoreInv at hinv ⊢
    dsimp only
    rw [List.pairwise_cons]
    refine ⟨?_, hinv⟩
    intro b hb hsame
    obtain ⟨h1, h2, h3⟩ := hsame
    have hc : (s.assignments.any fun x => tripleMatches x e g d) = true := by
      refine List.any_eq_true.mpr ⟨b, hb, ?_⟩
      simp only [tripleMatches, Bool.and_eq_true, beq_iff_eq]
      exact ⟨⟨h1.symm, h2.symm⟩, h3.symm⟩
    rw [hany] at hc
    cases hc
  · intro s i s₁ hinv hok
    unfold AssignmentStore.deleteById at hok
    by_cases hany : (s.assignments.any fun a => a.id == i) = true
    · rw [if_pos hany] at hok
      simp only [Except.ok.injEq] at hok
      subst hok
      unfold StoreInv at hinv ⊢
      dsimp only
      exact List.Pairwise.sublist (List.filter_sublist _) hinv
    · rw [if_neg hany] at hok
      cases hok
  · intro s g d hinv
    unfold StoreInv at hinv ⊢
    unfold AssignmentStore.deleteAll
    dsimp only
    exact List.Pairwise.sublist (List.filter_sublist _) hinv
  · intro s e g d o o₂ a s₁ hok
    obtain ⟨hany, -, hs₁⟩ := create_ok_inv hok
    subst hs₁
    have hpred :
        tripleMatches (⟨s.nextId, e, g, d, o⟩ : Assignment) e g d = true := by
      simp [tripleMatches]
    have hnil : (s.assignments.filter fun x => tripleMatches x e g d) = [] := by
      rw [List.filter_eq_nil_iff]
      intro x hx hpx
      have hc : (s.assignments.any fun b => tripleMatches b e g d) = true :=
        List.any_eq_true.mpr ⟨x, hx, hpx⟩
      rw [hany] at hc
      cases hc
    constructor
    · unfold AssignmentStore.create
      rw [if_pos]
      dsimp only
      exact List.any_eq_true.mpr ⟨_, List.mem_cons_self _ _, hpred⟩
    · unfold tripleCount
      dsimp only
      rw [List.filter_cons]
      simp [hpred, hnil]

/-- The pre-swap store for the C3 witness: the requester `e1` holds
assignment 0 for shift (`g1`, 2025-03-10), and the successor `e2` is
already booked on the very same shift — the create half must conflict. -/
def storeDemo : AssignmentStore :=
  { assignments :=
      [⟨0, "e1", "g1", "2025-03-10", "manuel"⟩,
        ⟨1, "e2", "g1", "2025-03-10", "manuel"⟩],
    nextId := 2 }

/-- C3: when the create half of an approved replacement swap fails with a
conflict, the deletion is rolled back: the decision fails with
`ReplacementConflictError`, the caller's store is exactly the pre-swap
store (so the original Assignment still exists), and no shift's occupancy
changes — in particular it never drops to zero because of a failed swap. -/
theorem C3_swap_rollback (s : AssignmentStore) (origId : Nat)
    (succ g d : String)
    (h : (approveReplacementSwap s origId succ g d).2 =
      some SwapError.replacementConflict) :
    (approveReplacementSwap s origId succ g d).1 = s ∧
    (∀ a ∈ s.assignments,
      a ∈ (approveReplacementSwap s origId succ g d).1.assignments) ∧
    (∀ g₂ d₂,
      occupancy (approveReplacementSwap s origId succ g d).1 g₂ d₂ =
        occupancy s g₂ d₂) := by
  unfold approveReplacementSwap at h ⊢
  cases hdel : s.deleteById origId with
  | error err =>
    rw [hdel] at h
    dsimp only at h
    cases h
  | ok s₁ =>
    rw [hdel] at h
    dsimp only at h ⊢
    cases hcr : s₁.create succ g d "manual" with
    | error e₂ =>
      dsimp only
      exact ⟨rfl, fun a ha => ha, fun g₂ d₂ => rfl⟩
    | ok p =>
      obtain ⟨a₂, s₂⟩ := p
      rw [hcr] at h
      dsimp only at h
      cases h

theorem C3_witness :
    (approveReplacementSwap storeDemo 0 "e2" "g1" "2025-03-10").1 =
      storeDemo :=
  (C3_swap_rollback storeDemo 0 "e2" "g1" "2025-03-10" (by decide)).1

theorem C2_witness :
    AssignmentStore.create
      ⟨[⟨0, "e1", "g1", "2025-03-10", "manuel"⟩], 1⟩ "e1" "g1" "2025-03-10"
      "manuel" = Except.error StoreError.conflict ∧
    tripleCount ⟨[⟨0, "e1", "g1", "2025-03-10", "manuel"⟩], 1⟩ "e1" "g1"
      "2025-03-10" = 1 :=
  C2_no_double_booking.2.2.2 ⟨[], 0⟩ "e1" "g1" "2025-03-10" "manuel" "manuel"
    ⟨0, "e1", "g1", "2025-03-10", "manuel"⟩
    ⟨[⟨0, "e1", "g1", "2025-03-10", "manuel"⟩], 1⟩ rfl

theorem find?_map_update {α : Type} (idOf : α → Nat) (upd : α → α)
    (hid : ∀ x, idOf (upd x) = idOf x) (i : Nat) (l : List α) (r : α)
    (hf : l.find? (fun q => idOf q == i) = some r) :
    (l.map fun q => if idOf q == i then upd q else q).find?
      (fun q => idOf q == i) = some (upd r) := by
  induction l with
  | nil => simp at hf
  | cons a l ih =>
    rw [List.map_cons]
    by_cases ha : (idOf a == i) = true
    · rw [List.find?_cons_of_pos (p := fun q => idOf q == i) _ ha] at hf
      cases hf
      rw [if_pos ha]
      apply List.find?_cons_of_pos
      rw [hid]
      exact ha
    · rw [List.find?_cons_of_neg (p := fun q => idOf q == i) _ ha] at hf
      rw [if_neg ha,
        List.find?_cons_of_neg (p := fun q => idOf q == i) _ ha]
      exact ih hf

/-- C4: deciding a request that is already terminal (`approuve`/`refuse`)
fails with `InvalidTransitionError`, returning the workflow state — request
ledgers and notification history — unchanged; and a request successfully
decided once cannot be transitioned again: the retry fails the same way on
the unchanged state. -/
theorem C4_terminal_decide :
    (∀ w reqId action r,
      w.conges.find? (fun q => q.id == reqId) = some r →
      r.statut ≠ LeaveStatus.en_attente →
      decideConge w reqId action =
        (w, some WorkflowError.invalidTransition)) ∧
    (∀ w reqId action r,
      w.remplacements.find? (fun q => q.id == reqId) = some r →
      r.statut ≠ ReplacementStatus.en_cours →
      decideRemplacement w reqId action =
        (w, some WorkflowError.invalidTransition)) ∧
    (∀ w reqId action w₁ action₂,
      decideConge w reqId action = (w₁, none) →
      decideConge w₁ reqId action₂ =
        (w₁, some WorkflowError.invalidTransition)) ∧
    (∀ w reqId action w₁ action₂,
      decideRemplacement w reqId action = (w₁, none) →
      decideRemplacement w₁ reqId action₂ =
        (w₁, some WorkflowError.invalidTransition)) := by
  refine ⟨?_, ?_, ?_, ?_⟩
  · intro w reqId action r hf hterm
    unfold decideConge
    rw [hf]
    dsimp only
    rw [if_neg hterm]
  · intro w reqId action r hf hterm
    unfold decideRemplacement
    rw [hf]
    dsimp only
    rw [if_neg hterm]
  · intro w reqId action w₁ action₂ h
    unfold decideConge at h
    cases hf : w.conges.find? fun q => q.id == reqId with
    | none =>
      rw [hf] at h
      simp at h
    | some r =>
      rw [hf] at h
      dsimp only at h
      by_cases hs : r.statut = LeaveStatus.en_attente
      · rw [if_pos hs] at h
        simp only [Prod.mk.injEq] at h
        obtain ⟨hw, -⟩ := h
        subst hw
        have hns : ({ r with statut := decideLeaveStatus action } :
            LeaveRequest).statut ≠ LeaveStatus.en_attente := by
          cases action <;> simp [decideLeaveStatus]
        unfold decideConge
        dsimp only
        rw [find?_map_update LeaveRequest.id
          (fun q => { q with statut := decideLeaveStatus action })
          (fun x => rfl) reqId w.conges r hf]
        dsimp only
        rw [if_neg hns]
      · rw [if_neg hs] at h
        simp at h
  · intro w reqId action w₁ action₂ h
    unfold decideRemplacement at h
    cases hf : w.remplacements.find? fun q => q.id == reqId with
    | none =>
      rw [hf] at h
      simp at h
    | some r =>
      rw [hf] at h
      dsimp only at h
      by_cases hs : r.statut = ReplacementStatus.en_cours
      · rw [if_pos hs] at h
        simp only [Prod.mk.injEq] at h
        obtain ⟨hw, -⟩ := h
        subst hw
        have hns : ({ r with statut := decideReplacementStatus action } :
            ReplacementRequest).statut ≠ ReplacementStatus.en_cours := by
          cases action <;> simp [decideReplacementStatus]
        unfold decideRemplacement
        dsimp only
        rw [find?_map_update ReplacementRequest.id
          (fun q => { q with statut := decideReplacementStatus action })
          (fun x => rfl) reqId w.remplacements r hf]
        dsimp only
        rw [if_neg hns]
      · rw [if_neg hs] at h
        simp at h

/-- A workflow state with one already-approved leave request and one
already-refused replacement request. -/
def wDemo : WorkflowState :=
  { conges := [⟨1, "e1", LeaveStatus.approuve⟩],
    remplacements := [⟨1, "e2", ReplacementStatus.refuse⟩],
    notifications := [] }

theorem C4_witness :
    decideConge wDemo 1 DecideAction.approuver =
      (wDemo, some WorkflowError.invalidTransition) :=
  C4_terminal_decide.1 wDemo 1 DecideAction.approuver
    ⟨1, "e1", LeaveStatus.approuve⟩ rfl (by decide)
